import Mathlib

/-!
Verification development for the trustlines relay.

We give a shallow embedding of the parts of the repository that the
specification talks about:

* the per-network trust graph (`CurrencyNetworkGraph`) and account summaries,
* the incremental chain-event handlers of `TrustlinesRelay`
  (`_on_balance_update`, `_on_creditline_update`, `_on_trustline_update`,
  `_on_transfer`, `_on_creditline_request`, `_on_trustline_request`) together
  with the publication helpers (`_publish_blockchain_event`,
  `_publish_balance_event`, `_publish_network_balance_event`),
* the push-notification subscription management
  (`_start_pushnotifications`, `_stop_pushnotifications`,
  `delete_push_client_token`),
* the unw-eth event query fan-out (`UnwEthProxy.get_unw_eth_events`,
  `UnwEthProxy.get_all_unw_eth_events`).

Stateful Python code becomes explicit state passing; a Python `KeyError` or a
raised exception becomes `none` / an `Except.error`; the scheduling outcome of
a spawned greenlet (finished before the `joinall` deadline or not) becomes an
`Option`-valued parameter.
-/

namespace Relay

/-- Account summary as produced by `CurrencyNetworkGraph.get_account_sum`.
Field names follow the code (`creditline_given`, `creditline_received`,
`balance`, `creditline_left_given`, `creditline_left_received`). -/
structure AccountSummary where
  creditline_given : Int
  creditline_received : Int
  balance : Int
  creditline_left_given : Int
  creditline_left_received : Int
deriving DecidableEq, Repr

/-- Lookup of a directed pair in an association list, defaulting to `0`
(absence of a relationship is not an error). -/
def lookupPair (m : List ((String × String) × Int)) (a b : String) : Int :=
  match m.find? (fun p => p.1 == (a, b)) with
  | some p => p.2
  | none => 0

/-- Store a value for a directed pair in an association list. -/
def setPair (m : List ((String × String) × Int)) (a b : String) (v : Int) :
    List ((String × String) × Int) :=
  ((a, b), v) :: m.filter (fun p => !(p.1 == (a, b)))

/-- Modelled from the spec: `CurrencyNetworkGraph` of
`relay.network_graph.graph` is not under `src/`; per spec section 3 a trust
line stores `creditline_given(A→B)` (with `creditline_received(A→B) ==
creditline_given(B→A)`) and a signed `balance(A→B) == -balance(B→A)`. We
store the directed credit limits and directed balances as association
lists. -/
structure CurrencyNetworkGraph where
  max_hops : Nat
  creditlines : List ((String × String) × Int)
  balances : List ((String × String) × Int)
deriving DecidableEq, Repr

/-- Modelled from the spec: `update_creditline(from, to, given)` upserts the
one-directional limit. -/
def CurrencyNetworkGraph.update_creditline (g : CurrencyNetworkGraph)
    (from_ to_ : String) (given : Int) : CurrencyNetworkGraph :=
  { g with creditlines := setPair g.creditlines from_ to_ given }

/-- Modelled from the spec: `update_trustline(from, to, given, received)` sets
both directions of a pair atomically. -/
def CurrencyNetworkGraph.update_trustline (g : CurrencyNetworkGraph)
    (from_ to_ : String) (given received : Int) : CurrencyNetworkGraph :=
  { g with creditlines := setPair (setPair g.creditlines from_ to_ given) to_ from_ received }

/-- Modelled from the spec: `update_balance(from, to, value)` sets the signed
balance for the pair and mirrors `(to, from) = -value` atomically. -/
def CurrencyNetworkGraph.update_balance (g : CurrencyNetworkGraph)
    (from_ to_ : String) (value : Int) : CurrencyNetworkGraph :=
  { g with balances := setPair (setPair g.balances from_ to_ value) to_ from_ (-value) }

/-- Modelled from the spec: pairwise account summary, spec section 3:
`left_given = given - balance`, `left_received = received + balance`; unknown
pairs give the zero summary. -/
def CurrencyNetworkGraph.get_account_sum_pair (g : CurrencyNetworkGraph)
    (user other : String) : AccountSummary :=
  let given := lookupPair g.creditlines user other
  let received := lookupPair g.creditlines other user
  let balance := lookupPair g.balances user other
  { creditline_given := given
    creditline_received := received
    balance := balance
    creditline_left_given := given - balance
    creditline_left_received := received + balance }

/-- Counterparties of `user`: accounts appearing opposite `user` in any
stored credit line or balance entry. -/
def CurrencyNetworkGraph.partners (g : CurrencyNetworkGraph) (user : String) :
    List String :=
  ((g.creditlines.map Prod.fst ++ g.balances.map Prod.fst).filterMap
    (fun p =>
      if p.1 = user then some p.2
      else if p.2 = user then some p.1
      else none)).dedup

/-- Modelled from the spec: `get_account_sum(user)` with the counterparty
omitted returns the aggregate across all of the user's trust lines. -/
def CurrencyNetworkGraph.get_account_sum (g : CurrencyNetworkGraph)
    (user : String) : AccountSummary :=
  (g.partners user).foldl
    (fun acc other =>
      let s := g.get_account_sum_pair user other
      { creditline_given := acc.creditline_given + s.creditline_given
        creditline_received := acc.creditline_received + s.creditline_received
        balance := acc.balance + s.balance
        creditline_left_given := acc.creditline_left_given + s.creditline_left_given
        creditline_left_received := acc.creditline_left_received + s.creditline_left_received })
    ⟨0, 0, 0, 0, 0⟩

/-- A raw chain event as consumed by the incremental handlers
(`relay/relay.py`). The Python event objects carry (a superset of) these
attributes; `user` starts out unset (`none`) and is stamped by
`_publish_blockchain_event`. -/
structure BlockchainEvent where
  network_address : String
  from_ : String
  to_ : String
  value : Int
  given : Int
  received : Int
  block_number : Nat
  log_index : Nat
  user : Option String
deriving DecidableEq, Repr

/-- Events delivered to per-account subscriptions: either a re-published raw
chain event, or one of the two derived summary events (`BalanceEvent`,
`NetworkBalanceEvent` of `relay.events`, whose payloads per spec section 4.3
are the pairwise and aggregate account summaries for an endpoint). -/
inductive PEvent where
  | raw (e : BlockchainEvent)
  | balance (network_address : String) (from_ to_ : String) (summary : AccountSummary)
  | networkBalance (network_address : String) (user : String) (summary : AccountSummary)
deriving DecidableEq, Repr

/-- Is this published event a re-published raw chain event? -/
def PEvent.isRaw : PEvent → Bool
  | .raw _ => true
  | _ => false

/-- Is this published event a derived summary event (pairwise balance or
network-wide aggregate)? -/
def PEvent.isSummary : PEvent → Bool
  | .raw _ => false
  | _ => true

/-- The mutable relay state the incremental handlers touch:
`self.currency_network_graphs`, a dict from network address to graph. -/
structure RelayState where
  currency_network_graphs : List (String × CurrencyNetworkGraph)
deriving DecidableEq, Repr

/-- `self.currency_network_graphs[address]`; `none` models the `KeyError` on
an unknown network. -/
def RelayState.graph? (s : RelayState) (address : String) :
    Option CurrencyNetworkGraph :=
  (s.currency_network_graphs.find? (fun p => p.1 == address)).map Prod.snd

/-- Store an updated graph under a network address (the Python handlers
mutate the graph object held in the dict in place; functionally this is a
store at the same key). -/
def RelayState.setGraph (s : RelayState) (address : String)
    (g : CurrencyNetworkGraph) : RelayState :=
  ⟨(address, g) :: s.currency_network_graphs.filter (fun p => !(p.1 == address))⟩

/-- `_publish_blockchain_event`: deep-copy the event, stamp `user = from_` on
one copy and `user = to` on the other, and publish each via
`_publish_user_event` (which delivers to `self.subjects[event.user]`). The
result is the list of (recipient, event) publications in order. -/
def publish_blockchain_event (e : BlockchainEvent) : List (String × PEvent) :=
  [(e.from_, .raw { e with user := some e.from_ }),
   (e.to_, .raw { e with user := some e.to_ })]

/-- `_publish_balance_event(from_, to, network_address)`: reads the network's
graph from the relay state and publishes a `BalanceEvent` with the pairwise
summary, delivered to the `from_` endpoint. `none` models the `KeyError` on
an unknown network. -/
def publish_balance_event (s : RelayState) (from_ to_ network_address : String) :
    Option (String × PEvent) :=
  (s.graph? network_address).map
    (fun g => (from_, PEvent.balance network_address from_ to_ (g.get_account_sum_pair from_ to_)))

/-- `_publish_network_balance_event(user, network_address)`: reads the
network's graph and publishes a `NetworkBalanceEvent` with the aggregate
summary for `user`. -/
def publish_network_balance_event (s : RelayState) (user network_address : String) :
    Option (String × PEvent) :=
  (s.graph? network_address).map
    (fun g => (user, PEvent.networkBalance network_address user (g.get_account_sum user)))

/-- `_on_balance_update`: mutate the graph with `update_balance`, then publish
the two pairwise balance events and the two network balance events. Note: no
`_publish_blockchain_event` call. Result: updated state and publication list;
`none` models a `KeyError`. -/
def on_balance_update (s : RelayState) (e : BlockchainEvent) :
    Option (RelayState × List (String × PEvent)) :=
  match s.graph? e.network_address with
  | none => none
  | some g =>
    let s1 := s.setGraph e.network_address (g.update_balance e.from_ e.to_ e.value)
    match publish_balance_event s1 e.from_ e.to_ e.network_address,
          publish_balance_event s1 e.to_ e.from_ e.network_address,
          publish_network_balance_event s1 e.from_ e.network_address,
          publish_network_balance_event s1 e.to_ e.network_address with
    | some p1, some p2, some p3, some p4 => some (s1, [p1, p2, p3, p4])
    | _, _, _, _ => none

/-- `_on_creditline_update`: mutate with `update_creditline`, re-publish the
raw event (two stamped copies), then publish the two pairwise and two
network summary events. -/
def on_creditline_update (s : RelayState) (e : BlockchainEvent) :
    Option (RelayState × List (String × PEvent)) :=
  match s.graph? e.network_address with
  | none => none
  | some g =>
    let s1 := s.setGraph e.network_address (g.update_creditline e.from_ e.to_ e.value)
    match publish_balance_event s1 e.from_ e.to_ e.network_address,
          publish_balance_event s1 e.to_ e.from_ e.network_address,
          publish_network_balance_event s1 e.from_ e.network_address,
          publish_network_balance_event s1 e.to_ e.network_address with
    | some p1, some p2, some p3, some p4 =>
      some (s1, publish_blockchain_event e ++ [p1, p2, p3, p4])
    | _, _, _, _ => none

/-- `_on_trustline_update`: mutate with `update_trustline`, re-publish the raw
event, then publish the two pairwise and two network summary events. -/
def on_trustline_update (s : RelayState) (e : BlockchainEvent) :
    Option (RelayState × List (String × PEvent)) :=
  match s.graph? e.network_address with
  | none => none
  | some g =>
    let s1 := s.setGraph e.network_address (g.update_trustline e.from_ e.to_ e.given e.received)
    match publish_balance_event s1 e.from_ e.to_ e.network_address,
          publish_balance_event s1 e.to_ e.from_ e.network_address,
          publish_network_balance_event s1 e.from_ e.network_address,
          publish_network_balance_event s1 e.to_ e.network_address with
    | some p1, some p2, some p3, some p4 =>
      some (s1, publish_blockchain_event e ++ [p1, p2, p3, p4])
    | _, _, _, _ => none

/-- `_on_transfer`: only re-publishes the raw event; the graph and the rest of
the state are untouched and no summary events are derived. -/
def on_transfer (s : RelayState) (e : BlockchainEvent) :
    RelayState × List (String × PEvent) :=
  (s, publish_blockchain_event e)

/-- `_on_creditline_request`: pass-through notification, no graph access. -/
def on_creditline_request (s : RelayState) (e : BlockchainEvent) :
    RelayState × List (String × PEvent) :=
  (s, publish_blockchain_event e)

/-- `_on_trustline_request`: pass-through notification, no graph access. -/
def on_trustline_request (s : RelayState) (e : BlockchainEvent) :
    RelayState × List (String × PEvent) :=
  (s, publish_blockchain_event e)

theorem graph?_setGraph (s : RelayState) (a : String) (g : CurrencyNetworkGraph) :
    (s.setGraph a g).graph? a = some g := by
  simp [RelayState.graph?, RelayState.setGraph, List.find?]

/-- A subscription sink registered on a `Subject`: either a
`PushNotificationClient` carrying its Firebase client token, or another kind
of client (e.g. the messaging/stream clients), which never matches a client
token. -/
inductive SubscriptionClient where
  | pushNotification (client_token : String)
  | otherClient (id : Nat)
deriving DecidableEq, Repr

/-- `isinstance(subscription.client, PushNotificationClient) and
subscription.client.client_token == client_token`. -/
def SubscriptionClient.matchesToken : SubscriptionClient → String → Bool
  | .pushNotification t, token => t == token
  | .otherClient _, _ => false

/-- The `self.subjects` defaultdict: per-account ordered list of subscribed
clients. An absent key behaves as the empty list. -/
structure Subjects where
  table : List (String × List SubscriptionClient)
deriving DecidableEq, Repr

/-- `self.subjects[user].subscriptions` (empty for an unknown account). -/
def Subjects.subscriptions (s : Subjects) (user : String) :
    List SubscriptionClient :=
  ((s.table.find? (fun p => p.1 == user)).map Prod.snd).getD []

/-- Replace the subscription list of one account. -/
def Subjects.setSubscriptions (s : Subjects) (user : String)
    (subs : List SubscriptionClient) : Subjects :=
  ⟨(user, subs) :: s.table.filter (fun p => !(p.1 == user))⟩

/-- Modelled from the spec: `Subject.subscribe` of `relay.streams` is not
under `src/`; per spec section 4.5, `subscribe(account, sink)` registers the
sink in the account's subscription list. -/
def Subjects.subscribe (s : Subjects) (user : String) (c : SubscriptionClient) :
    Subjects :=
  s.setSubscriptions user (s.subscriptions user ++ [c])

/-- Errors raised by the push-notification registration paths. -/
inductive PushError where
  | invalidClientToken
  | tokenNotFound
deriving DecidableEq, Repr

/-- `_start_pushnotifications(user_address, client_token)`: raise
`InvalidClientTokenException` if the Firebase check fails (`check` stands for
the external `check_client_token`); return unchanged if a
`PushNotificationClient` with this token is already subscribed for the
account; otherwise subscribe a new `PushNotificationClient`. -/
def start_pushnotifications (check : String → Bool) (s : Subjects)
    (user_address client_token : String) : Except PushError Subjects :=
  if !(check client_token) then .error .invalidClientToken
  else if (s.subscriptions user_address).any
      (fun c => c.matchesToken client_token) then .ok s
  else .ok (s.subscribe user_address (.pushNotification client_token))

/-- `_stop_pushnotifications(user_address, client_token)`: unsubscribe every
matching `PushNotificationClient` of that account (each
`subscription.unsubscribe()` removes exactly that subscription, per spec
section 4.5 — `relay.streams` is not under `src/`); raise
`TokenNotFoundException` when none matched. -/
def stop_pushnotifications (s : Subjects) (user_address client_token : String) :
    Except PushError Subjects :=
  if (s.subscriptions user_address).any (fun c => c.matchesToken client_token) then
    .ok (s.setSubscriptions user_address
      ((s.subscriptions user_address).filter (fun c => !(c.matchesToken client_token))))
  else .error .tokenNotFound

/-- Number of push-notification subscriptions of `user` matching `token`. -/
def Subjects.countToken (s : Subjects) (user token : String) : Nat :=
  (s.subscriptions user).countP (fun c => c.matchesToken token)

/-- The state touched by `delete_push_client_token`: the client-token
database and the live subscriptions. -/
structure PushRelayState where
  client_token_db : List (String × String)
  subjects : Subjects
deriving DecidableEq, Repr

/-- Modelled from the spec: `ClientTokenDB.delete_client_token` of
`relay.pushservice.client_token_db` is not under `src/`; the token store
interface deletes the `(user, client token)` entry. -/
def delete_client_token (db : List (String × String)) (user token : String) :
    List (String × String) :=
  db.filter (fun p => !(p == (user, token)))

/-- `delete_push_client_token(user_address, client_token)` (with the push
service enabled): first delete the pair from the client-token database, then
`_stop_pushnotifications`. The second component records whether the call
returned normally or raised (`TokenNotFoundException` propagates, but the
database deletion already happened and stays). -/
def delete_push_client_token (st : PushRelayState) (user token : String) :
    PushRelayState × Except PushError Unit :=
  let db1 := delete_client_token st.client_token_db user token
  match stop_pushnotifications st.subjects user token with
  | .ok s2 => (⟨db1, s2⟩, .ok ())
  | .error err => (⟨db1, st.subjects⟩, .error err)

/-- An unw-eth / token event as built by the event builders of
`relay.blockchain.token_events` (every unw-eth event is a `TokenEvent`);
`user` is the stamped query perspective. -/
structure TokenEvent where
  block_number : Nat
  log_index : Nat
  from_ : String
  to_ : String
  value : Int
  user : Option String
deriving DecidableEq, Repr

/-- Strict order on events by `(block_number, log_index)`. -/
def eventLt (a b : TokenEvent) : Bool :=
  (a.block_number < b.block_number) ||
    (a.block_number == b.block_number && a.log_index < b.log_index)

/-- Insert an event before the first position whose element is not strictly
below it (so an element equal on the sort key stays behind earlier-inserted
ones: the sort below is stable). -/
def insertEvent (e : TokenEvent) : List TokenEvent → List TokenEvent
  | [] => [e]
  | x :: xs => if eventLt x e then x :: insertEvent e xs else e :: x :: xs

/-- Modelled from the spec: `sorted_events` of `relay.blockchain.proxy` is
not under `src/`; per spec section 4.4 it stable-sorts events by
`(block_number asc, log_index asc)` — here as a stable insertion sort. -/
def sorted_events : List TokenEvent → List TokenEvent
  | [] => []
  | x :: xs => insertEvent x (sorted_events xs)

/-- An address-indexed topic filter handed to `Proxy.get_events`:
`topicFirst` is a filter on the first indexed field of the event
(`from_to_types[event_name][0]`) and `topicSecond` on the second
(`from_to_types[event_name][1]`). For `Transfer` these are the sender and
the receiver field. -/
inductive TopicFilter where
  | topicFirst
  | topicSecond
deriving DecidableEq, Repr

def TransferEvent : String := "Transfer"

def DepositEvent : String := "Deposit"

def WithdrawalEvent : String := "Withdrawal"

def ApprovalEvent : String := "Approval"

/-- `UnwEthProxy.standard_event_types`. -/
def standard_event_types : List String :=
  [TransferEvent, DepositEvent, WithdrawalEvent, ApprovalEvent]

/-- Stamp each event of the query result with the queried user, the loop
`for event in result: event.user = user_address` (every unw-eth event is a
`TokenEvent`, so the `ValueError` branch is unreachable in this model). -/
def stampUser (u : String) (l : List TokenEvent) : List TokenEvent :=
  l.map (fun e => { e with user := some u })

/-- `UnwEthProxy.get_unw_eth_events(event_name, user_address, from_block)`.
`ge name topic?` stands for the chain query `self.get_events` (the chain RPC
layer is external): `some l` means the call finished with result `l` before
the surrounding `gevent.joinall` deadline, `none` that the greenlet was still
unfinished at the deadline (its `.value` is `None`) or that it raised. In the
`Transfer` branch the two topic queries are spawned concurrently and joined
with `timeout=2`; the merge reads `event.value` of both greenlets
unconditionally, so a `none` value makes the
`list(itertools.chain.from_iterable(...))` raise a `TypeError` — modelled as
a `none` overall result. -/
def get_unw_eth_events (ge : String → Option TopicFilter → Option (List TokenEvent))
    (event_name : String) (user_address : Option String) :
    Option (List TokenEvent) :=
  match user_address with
  | none => (ge event_name none).map sorted_events
  | some u =>
    if event_name == TransferEvent then
      match ge event_name (some .topicFirst), ge event_name (some .topicSecond) with
      | some l1, some l2 => some (sorted_events (stampUser u (l1 ++ l2)))
      | _, _ => none
    else
      (ge event_name (some .topicFirst)).map (fun l => sorted_events (stampUser u l))

/-- `UnwEthProxy.get_all_unw_eth_events(user_address, from_block)`: spawn one
`get_unw_eth_events` task per standard event type, join with `timeout=5`,
then read every greenlet's `.value` unconditionally. `done t` says whether
the task for type `t` finished before the deadline; an unfinished task (or
one whose inner call raised) contributes `None`, which again makes the
`chain.from_iterable` raise — modelled as a `none` overall result. -/
def get_all_unw_eth_events (ge : String → Option TopicFilter → Option (List TokenEvent))
    (done : String → Bool) (user_address : Option String) :
    Option (List TokenEvent) :=
  let values := standard_event_types.map
    (fun t => if done t then get_unw_eth_events ge t user_address else none)
  match values.mapM id with
  | some ls => some (sorted_events ls.flatten)
  | none => none

/-- The four derived summary publications of a mutation handler for the two
endpoints `a` and `b` of a trust line, reading graph `g`: the two pairwise
balance events and the two network-wide aggregate events, in source order. -/
def summary_events (net a b : String) (g : CurrencyNetworkGraph) :
    List (String × PEvent) :=
  [(a, .balance net a b (g.get_account_sum_pair a b)),
   (b, .balance net b a (g.get_account_sum_pair b a)),
   (a, .networkBalance net a (g.get_account_sum a)),
   (b, .networkBalance net b (g.get_account_sum b))]

theorem on_balance_update_eq (s : RelayState) (e : BlockchainEvent)
    (g : CurrencyNetworkGraph) (hg : s.graph? e.network_address = some g) :
    on_balance_update s e =
      some (s.setGraph e.network_address (g.update_balance e.from_ e.to_ e.value),
        summary_events e.network_address e.from_ e.to_
          (g.update_balance e.from_ e.to_ e.value)) := by
  simp [on_balance_update, hg, publish_balance_event, publish_network_balance_event,
    graph?_setGraph, summary_events]

theorem on_creditline_update_eq (s : RelayState) (e : BlockchainEvent)
    (g : CurrencyNetworkGraph) (hg : s.graph? e.network_address = some g) :
    on_creditline_update s e =
      some (s.setGraph e.network_address (g.update_creditline e.from_ e.to_ e.value),
        publish_blockchain_event e ++
          summary_events e.network_address e.from_ e.to_
            (g.update_creditline e.from_ e.to_ e.value)) := by
  simp [on_creditline_update, hg, publish_balance_event, publish_network_balance_event,
    graph?_setGraph, summary_events]

theorem on_trustline_update_eq (s : RelayState) (e : BlockchainEvent)
    (g : CurrencyNetworkGraph) (hg : s.graph? e.network_address = some g) :
    on_trustline_update s e =
      some (s.setGraph e.network_address
          (g.update_trustline e.from_ e.to_ e.given e.received),
        publish_blockchain_event e ++
          summary_events e.network_address e.from_ e.to_
            (g.update_trustline e.from_ e.to_ e.given e.received)) := by
  simp [on_trustline_update, hg, publish_balance_event, publish_network_balance_event,
    graph?_setGraph, summary_events]

/-- Equality of two raw chain events on every field except `user`. -/
def sameExceptUser (a b : BlockchainEvent) : Prop :=
  a.network_address = b.network_address ∧ a.from_ = b.from_ ∧ a.to_ = b.to_ ∧
  a.value = b.value ∧ a.given = b.given ∧ a.received = b.received ∧
  a.block_number = b.block_number ∧ a.log_index = b.log_index

theorem find?_filter_of_ne (t : List (String × List SubscriptionClient))
    (u v : String) (h : v ≠ u) :
    (t.filter (fun p => !(p.1 == u))).find? (fun p => p.1 == v) =
      t.find? (fun p => p.1 == v) := by
  have huv : (u == v) = false := by
    simp
    exact fun hvu => h hvu.symm
  have hvu : (v == u) = false := by
    simp
    exact h
  induction t with
  | nil => rfl
  | cons a t ih =>
    by_cases hu : a.1 = u
    · simp [List.filter_cons, List.find?_cons, hu, huv, ih]
    · by_cases hv : a.1 = v
      · simp [List.filter_cons, List.find?_cons, hu, hv, hvu]
      · simp [List.filter_cons, List.find?_cons, hu, hv, ih]

theorem subscriptions_setSubscriptions_self (s : Subjects) (u : String)
    (l : List SubscriptionClient) :
    (s.setSubscriptions u l).subscriptions u = l := by
  simp [Subjects.subscriptions, Subjects.setSubscriptions, List.find?]

theorem subscriptions_setSubscriptions_ne (s : Subjects) (u v : String)
    (l : List SubscriptionClient) (h : v ≠ u) :
    (s.setSubscriptions u l).subscriptions v = s.subscriptions v := by
  have hne : (u == v) = false := by
    simp
    exact fun huv => h huv.symm
  simp [Subjects.subscriptions, Subjects.setSubscriptions, List.find?, hne,
    find?_filter_of_ne s.table u v h]

theorem stop_pushnotifications_of_match (s : Subjects) (u t : String)
    (h : 0 < s.countToken u t) :
    stop_pushnotifications s u t =
      .ok (s.setSubscriptions u
        ((s.subscriptions u).filter (fun c => !(c.matchesToken t)))) := by
  have hany : (s.subscriptions u).any (fun c => c.matchesToken t) = true := by
    rw [List.any_eq_true]
    obtain ⟨c, hc, hct⟩ := List.countP_pos_iff.mp h
    exact ⟨c, hc, hct⟩
  simp [stop_pushnotifications, hany]

theorem stop_pushnotifications_of_no_match (s : Subjects) (u t : String)
    (h : s.countToken u t = 0) :
    stop_pushnotifications s u t = .error .tokenNotFound := by
  have hany : (s.subscriptions u).any (fun c => c.matchesToken t) = false := by
    rw [Bool.eq_false_iff]
    intro hc
    rw [List.any_eq_true] at hc
    obtain ⟨c, hcmem, hct⟩ := hc
    have := List.countP_eq_zero.mp h c hcmem
    exact this hct
  simp [stop_pushnotifications, hany]

/-- A one-network relay state used as concrete input. -/
def sampleGraph : CurrencyNetworkGraph := ⟨100, [], []⟩

/-- A one-network relay state used as concrete input. -/
def sampleState : RelayState := ⟨[("N", sampleGraph)]⟩

/-- The raw re-publication behaviour of the six incremental handlers on state
`s` and event `e`: the credit-line update, trust-line update, transfer,
credit-line request and trust-line request handlers publish the two stamped
raw copies (the copy delivered to `from_` carries `user = from_`, the copy
delivered to `to` carries `user = to`); the balance-update handler publishes
no raw event at all. -/
def rawRepublication (s : RelayState) (e : BlockchainEvent) : Prop :=
  (∃ s1 rest, on_creditline_update s e = some (s1, publish_blockchain_event e ++ rest)) ∧
  (∃ s1 rest, on_trustline_update s e = some (s1, publish_blockchain_event e ++ rest)) ∧
  (on_transfer s e).2 = publish_blockchain_event e ∧
  (on_creditline_request s e).2 = publish_blockchain_event e ∧
  (on_trustline_request s e).2 = publish_blockchain_event e ∧
  (∃ s1 ps, on_balance_update s e = some (s1, ps) ∧ ∀ p ∈ ps, p.2.isRaw = false) ∧
  publish_blockchain_event e =
    [(e.from_, .raw { e with user := some e.from_ }),
     (e.to_, .raw { e with user := some e.to_ })]

/-- C1 (amended): for credit-line set, trust-line set, transfer, credit-line
requested and trust-line requested events the handler re-publishes the raw
event to the two endpoints as two copies, the copy delivered to `from_`
stamped with `user = from_` and the copy delivered to `to` stamped with
`user = to`; the balance-update handler, however, re-publishes no raw event
(it publishes only derived summary events). -/
theorem raw_event_republication (s : RelayState) (e : BlockchainEvent)
    (g : CurrencyNetworkGraph) (hg : s.graph? e.network_address = some g) :
    rawRepublication s e := by
  refine ⟨⟨_, _, on_creditline_update_eq s e g hg⟩,
          ⟨_, _, on_trustline_update_eq s e g hg⟩,
          rfl, rfl, rfl,
          ⟨_, _, on_balance_update_eq s e g hg, ?_⟩, rfl⟩
  intro p hp
  simp only [summary_events, List.mem_cons, List.not_mem_nil, or_false] at hp
  rcases hp with rfl | rfl | rfl | rfl <;> rfl

/-- C1 witness: the amended behaviour at a concrete one-network state and a
concrete balance-update event. -/
theorem raw_event_republication_witness :
    sampleState.graph? "N" = some sampleGraph ∧
    rawRepublication sampleState ⟨"N", "A", "B", 5, 2, 3, 1, 0, none⟩ :=
  ⟨by decide,
    raw_event_republication sampleState ⟨"N", "A", "B", 5, 2, 3, 1, 0, none⟩
      sampleGraph (by decide)⟩

/-- C1 counterexample: at a concrete state and balance-update event the
handler runs (result is `some`) but its publication list contains not a
single raw event, refuting the claim that every one of the five kinds
re-publishes the raw event to the two endpoints. -/
theorem balance_update_publishes_no_raw_copy :
    ((on_balance_update sampleState ⟨"N", "A", "B", 5, 0, 0, 1, 0, none⟩).map
        (fun r => r.2.countP (fun p => p.2.isRaw)) = some 0) ∧
    (on_balance_update sampleState ⟨"N", "A", "B", 5, 0, 0, 1, 0, none⟩).isSome = true := by
  decide

/-- The summary publication behaviour of the six handlers: the three mutation
handlers publish, for each of the two endpoints, the pairwise balance
summary event and the network-wide aggregate summary event (computed on the
freshly mutated graph); the transfer handler and the two request handlers
publish no summary event at all. -/
def summaryPublication (s : RelayState) (e : BlockchainEvent)
    (g : CurrencyNetworkGraph) : Prop :=
  on_balance_update s e =
    some (s.setGraph e.network_address (g.update_balance e.from_ e.to_ e.value),
      summary_events e.network_address e.from_ e.to_
        (g.update_balance e.from_ e.to_ e.value)) ∧
  on_creditline_update s e =
    some (s.setGraph e.network_address (g.update_creditline e.from_ e.to_ e.value),
      publish_blockchain_event e ++
        summary_events e.network_address e.from_ e.to_
          (g.update_creditline e.from_ e.to_ e.value)) ∧
  on_trustline_update s e =
    some (s.setGraph e.network_address
        (g.update_trustline e.from_ e.to_ e.given e.received),
      publish_blockchain_event e ++
        summary_events e.network_address e.from_ e.to_
          (g.update_trustline e.from_ e.to_ e.given e.received)) ∧
  (∀ p ∈ (on_transfer s e).2, p.2.isSummary = false) ∧
  (∀ p ∈ (on_creditline_request s e).2, p.2.isSummary = false) ∧
  (∀ p ∈ (on_trustline_request s e).2, p.2.isSummary = false)

/-- C2 (amended): only the balance-update, credit-line update and trust-line
update handlers derive and publish, for each of the two affected endpoints
independently, the pairwise balance summary event and the network-wide
aggregate summary event; the transfer handler and the two request handlers
publish no summary events. -/
theorem summary_event_publication (s : RelayState) (e : BlockchainEvent)
    (g : CurrencyNetworkGraph) (hg : s.graph? e.network_address = some g) :
    summaryPublication s e g := by
  refine ⟨on_balance_update_eq s e g hg, on_creditline_update_eq s e g hg,
          on_trustline_update_eq s e g hg, ?_, ?_, ?_⟩ <;>
  · intro p hp
    simp only [on_transfer, on_creditline_request, on_trustline_request,
      publish_blockchain_event, List.mem_cons, List.not_mem_nil, or_false] at hp
    rcases hp with rfl | rfl <;> rfl

/-- C2 witness: the amended behaviour at a concrete one-network state and a
concrete event. -/
theorem summary_event_publication_witness :
    sampleState.graph? "N" = some sampleGraph ∧
    summaryPublication sampleState ⟨"N", "C", "D", 7, 4, 6, 2, 1, none⟩ sampleGraph :=
  ⟨by decide,
    summary_event_publication sampleState ⟨"N", "C", "D", 7, 4, 6, 2, 1, none⟩
      sampleGraph (by decide)⟩

/-- C2 counterexample: at a concrete state and transfer event the handler
publishes two events (the raw copies) and not a single summary event,
refuting the claim that every one of the five kinds publishes the pairwise
and network-wide summary events. -/
theorem transfer_publishes_no_summary_event :
    ((on_transfer sampleState ⟨"N", "C", "D", 7, 0, 0, 2, 1, none⟩).2.countP
        (fun p => p.2.isSummary) = 0) ∧
    (on_transfer sampleState ⟨"N", "C", "D", 7, 0, 0, 2, 1, none⟩).2.length = 2 := by
  decide

/-- C4: handling a credit-line-requested or trust-line-requested event
applies no graph mutation: the relay state — in particular every currency
network graph — is returned exactly as it was, and the publication list is
exactly the raw pass-through of the event to the two endpoints. -/
theorem request_handlers_mutate_nothing (s : RelayState) (e : BlockchainEvent) :
    (on_creditline_request s e).1 = s ∧
    (on_trustline_request s e).1 = s ∧
    (on_creditline_request s e).1.currency_network_graphs = s.currency_network_graphs ∧
    (on_trustline_request s e).1.currency_network_graphs = s.currency_network_graphs ∧
    (on_creditline_request s e).2 = publish_blockchain_event e ∧
    (on_trustline_request s e).2 = publish_blockchain_event e :=
  ⟨rfl, rfl, rfl, rfl, rfl, rfl⟩

/-- C5: `_publish_blockchain_event` publishes exactly two copies of the
event, the first delivered to the `from_` endpoint with `user = from_`, the
second delivered to the `to` endpoint with `user = to`, and the two copies
agree with the original event on every field other than `user`. -/
theorem publish_blockchain_event_two_copies (e : BlockchainEvent) :
    ∃ e1 e2,
      publish_blockchain_event e = [(e.from_, .raw e1), (e.to_, .raw e2)] ∧
      e1.user = some e.from_ ∧ e2.user = some e.to_ ∧
      sameExceptUser e1 e ∧ sameExceptUser e2 e :=
  ⟨_, _, rfl, rfl, rfl,
    ⟨rfl, rfl, rfl, rfl, rfl, rfl, rfl, rfl⟩,
    ⟨rfl, rfl, rfl, rfl, rfl, rfl, rfl, rfl⟩⟩

/-- C6: registering a push-notification subscription for an (account, client
token) pair that already has exactly one active subscription with that same
client token is a successful no-op (assuming the token validates): the
subjects registry is returned unchanged, so there is still exactly one
matching push-notification subscription for that account. -/
theorem push_subscription_idempotent (check : String → Bool) (s : Subjects)
    (user token : String) (hcheck : check token = true)
    (hone : s.countToken user token = 1) :
    ∃ s2, start_pushnotifications check s user token = Except.ok s2 ∧
      s2 = s ∧ s2.countToken user token = 1 := by
  have hany : (s.subscriptions user).any (fun c => c.matchesToken token) = true := by
    rw [List.any_eq_true]
    have hpos : 0 < s.countToken user token := by omega
    obtain ⟨c, hc, hct⟩ := List.countP_pos_iff.mp hpos
    exact ⟨c, hc, hct⟩
  refine ⟨s, ?_, rfl, hone⟩
  simp [start_pushnotifications, hcheck, hany]

/-- C6 witness: a concrete registry with one matching push subscription. -/
theorem push_subscription_idempotent_witness :
    ((fun t => t == "tok") "tok" = true) ∧
    (⟨[("A", [SubscriptionClient.pushNotification "tok"])]⟩ : Subjects).countToken
      "A" "tok" = 1 ∧
    ∃ s2, start_pushnotifications (fun t => t == "tok")
        ⟨[("A", [SubscriptionClient.pushNotification "tok"])]⟩ "A" "tok" =
          Except.ok s2 ∧
      s2 = ⟨[("A", [SubscriptionClient.pushNotification "tok"])]⟩ ∧
      s2.countToken "A" "tok" = 1 :=
  ⟨by decide, by decide,
    push_subscription_idempotent (fun t => t == "tok")
      ⟨[("A", [SubscriptionClient.pushNotification "tok"])]⟩ "A" "tok"
      (by decide) (by decide)⟩

/-- C7: `_stop_pushnotifications` removes exactly the subscriptions of that
account whose client token matches (other accounts' subscription lists are
untouched and afterwards no matching subscription remains), and when no
matching active subscription exists it fails with `TokenNotFoundException`. -/
theorem stop_pushnotifications_spec (s : Subjects) (user token : String) :
    (0 < s.countToken user token →
      ∃ s2, stop_pushnotifications s user token = Except.ok s2 ∧
        s2.subscriptions user =
          (s.subscriptions user).filter (fun c => !(c.matchesToken token)) ∧
        s2.countToken user token = 0 ∧
        ∀ other, other ≠ user → s2.subscriptions other = s.subscriptions other) ∧
    (s.countToken user token = 0 →
      stop_pushnotifications s user token = Except.error PushError.tokenNotFound) := by
  constructor
  · intro hpos
    refine ⟨_, stop_pushnotifications_of_match s user token hpos, ?_, ?_, ?_⟩
    · exact subscriptions_setSubscriptions_self s user _
    · rw [Subjects.countToken, subscriptions_setSubscriptions_self s user _]
      rw [List.countP_eq_zero]
      intro c hc
      rcases List.mem_filter.mp hc with ⟨_, hcf⟩
      simp only [Bool.not_eq_eq_eq_not, Bool.not_true] at hcf
      simp [hcf]
    · intro other hother
      exact subscriptions_setSubscriptions_ne s user other _ hother
  · intro hzero
    exact stop_pushnotifications_of_no_match s user token hzero

/-- C7 witness: a concrete registry where the account holds one matching and
one non-matching subscription. -/
theorem stop_pushnotifications_spec_witness :
    0 < (⟨[("A", [SubscriptionClient.pushNotification "tok",
        SubscriptionClient.otherClient 0])]⟩ : Subjects).countToken "A" "tok" ∧
    ∃ s2, stop_pushnotifications
        ⟨[("A", [SubscriptionClient.pushNotification "tok",
            SubscriptionClient.otherClient 0])]⟩ "A" "tok" = Except.ok s2 ∧
      s2.subscriptions "A" =
        ((⟨[("A", [SubscriptionClient.pushNotification "tok",
            SubscriptionClient.otherClient 0])]⟩ : Subjects).subscriptions "A").filter
          (fun c => !(c.matchesToken "tok")) ∧
      s2.countToken "A" "tok" = 0 ∧
      ∀ other, other ≠ "A" →
        s2.subscriptions other =
          (⟨[("A", [SubscriptionClient.pushNotification "tok",
              SubscriptionClient.otherClient 0])]⟩ : Subjects).subscriptions other :=
  ⟨by decide,
    (stop_pushnotifications_spec
      ⟨[("A", [SubscriptionClient.pushNotification "tok",
          SubscriptionClient.otherClient 0])]⟩ "A" "tok").1 (by decide)⟩

/-- C10: `delete_push_client_token` deletes the (user, client token) pair
from the client-token database before attempting to remove the live
subscription; when no matching live subscription exists the call raises
`TokenNotFoundException`, yet the database deletion has already taken effect
and is not rolled back. -/
theorem delete_push_client_token_not_atomic (st : PushRelayState)
    (user token : String) (hzero : st.subjects.countToken user token = 0) :
    delete_push_client_token st user token =
      (⟨delete_client_token st.client_token_db user token, st.subjects⟩,
        Except.error PushError.tokenNotFound) ∧
    (user, token) ∉ (delete_push_client_token st user token).1.client_token_db := by
  have hstop := stop_pushnotifications_of_no_match st.subjects user token hzero
  constructor
  · simp [delete_push_client_token, hstop]
  · simp only [delete_push_client_token, hstop, delete_client_token]
    intro hmem
    rcases List.mem_filter.mp hmem with ⟨_, hne⟩
    simp at hne

/-- C10 witness: a concrete state whose database holds the pair (plus an
unrelated pair) while no live subscription matches. -/
theorem delete_push_client_token_not_atomic_witness :
    (⟨[("A", "tok"), ("A", "tok2")], ⟨[]⟩⟩ : PushRelayState).subjects.countToken
      "A" "tok" = 0 ∧
    (delete_push_client_token ⟨[("A", "tok"), ("A", "tok2")], ⟨[]⟩⟩ "A" "tok" =
      (⟨delete_client_token [("A", "tok"), ("A", "tok2")] "A" "tok", ⟨[]⟩⟩,
        Except.error PushError.tokenNotFound) ∧
    ("A", "tok") ∉
      (delete_push_client_token ⟨[("A", "tok"), ("A", "tok2")], ⟨[]⟩⟩
        "A" "tok").1.client_token_db) :=
  ⟨by decide,
    delete_push_client_token_not_atomic
      ⟨[("A", "tok"), ("A", "tok2")], ⟨[]⟩⟩ "A" "tok" (by decide)⟩

theorem insertEvent_perm (e : TokenEvent) (l : List TokenEvent) :
    (insertEvent e l).Perm (e :: l) := by
  induction l with
  | nil => exact List.Perm.refl _
  | cons x xs ih =>
    rw [insertEvent]
    by_cases h : eventLt x e = true
    · rw [if_pos h]
      exact (ih.cons x).trans (List.Perm.swap e x xs)
    · rw [if_neg h]

theorem sorted_events_perm (l : List TokenEvent) : (sorted_events l).Perm l := by
  induction l with
  | nil => exact List.Perm.refl _
  | cons x xs ih => exact (insertEvent_perm x (sorted_events xs)).trans (ih.cons x)

theorem mem_sorted_events {a : TokenEvent} {l : List TokenEvent} :
    a ∈ sorted_events l ↔ a ∈ l :=
  (sorted_events_perm l).mem_iff

theorem mem_sorted_stamp {u : String} {l : List TokenEvent} {ev : TokenEvent}
    (h : ev ∈ sorted_events (stampUser u l)) : ev.user = some u := by
  rw [mem_sorted_events] at h
  simp only [stampUser, List.mem_map] at h
  obtain ⟨a, _, rfl⟩ := h
  rfl

/-- The merged result of a user-filtered `Transfer` query: some result list
that is a permutation of the concatenation of the two stamped topic results
and whose length is the sum of both (duplicates are not removed; the only
reordering is the documented stable sort). -/
def mergesBothTopics (ge : String → Option TopicFilter → Option (List TokenEvent))
    (u : String) (l1 l2 : List TokenEvent) : Prop :=
  ∃ r, get_unw_eth_events ge TransferEvent (some u) = some r ∧
    r.Perm (stampUser u l1 ++ stampUser u l2) ∧
    r.length = l1.length + l2.length

/-- C8: a user-filtered `Transfer` query issues one sub-query per
address-indexed topic (sender field and receiver field of the same event
kind) and, when both complete, returns exactly the elements of the
concatenation of the two completed topic results (stamped with the user),
duplicates not removed — the only reordering being the stable
`(block_number, log_index)` sort. -/
theorem transfer_query_merges_both_topics
    (ge : String → Option TopicFilter → Option (List TokenEvent)) (u : String)
    (l1 l2 : List TokenEvent)
    (h1 : ge TransferEvent (some TopicFilter.topicFirst) = some l1)
    (h2 : ge TransferEvent (some TopicFilter.topicSecond) = some l2) :
    mergesBothTopics ge u l1 l2 := by
  refine ⟨sorted_events (stampUser u (l1 ++ l2)), ?_, ?_, ?_⟩
  · simp [get_unw_eth_events, h1, h2]
  · have heq : stampUser u (l1 ++ l2) = stampUser u l1 ++ stampUser u l2 := by
      simp [stampUser]
    rw [heq]
    exact sorted_events_perm _
  · rw [(sorted_events_perm _).length_eq]
    simp [stampUser]

/-- A concrete two-topic query result: the first (sender) topic completes
with two events, the second (receiver) topic completes with one event that
also appears in the first result. -/
def geBoth : String → Option TopicFilter → Option (List TokenEvent) :=
  fun name topic =>
    if name == TransferEvent && topic == some TopicFilter.topicFirst then
      some [⟨1, 0, "A", "B", 10, none⟩, ⟨2, 0, "B", "A", 4, none⟩]
    else if name == TransferEvent && topic == some TopicFilter.topicSecond then
      some [⟨1, 0, "A", "B", 10, none⟩]
    else none

/-- C8 witness: the merged result at the concrete two-topic query. -/
theorem transfer_query_merges_both_topics_witness :
    geBoth TransferEvent (some TopicFilter.topicFirst) =
      some [⟨1, 0, "A", "B", 10, none⟩, ⟨2, 0, "B", "A", 4, none⟩] ∧
    geBoth TransferEvent (some TopicFilter.topicSecond) =
      some [⟨1, 0, "A", "B", 10, none⟩] ∧
    mergesBothTopics geBoth "A"
      [⟨1, 0, "A", "B", 10, none⟩, ⟨2, 0, "B", "A", 4, none⟩]
      [⟨1, 0, "A", "B", 10, none⟩] :=
  ⟨by decide, by decide,
    transfer_query_merges_both_topics geBoth "A"
      [⟨1, 0, "A", "B", 10, none⟩, ⟨2, 0, "B", "A", 4, none⟩]
      [⟨1, 0, "A", "B", 10, none⟩] (by decide) (by decide)⟩

/-- Every event of the result list carries the queried user as its `user`
perspective. -/
def allStamped (r : List TokenEvent) (u : String) : Prop :=
  ∀ ev ∈ r, ev.user = some u

/-- C9: whenever a user-filtered unw-eth event query returns (with
`user_address` supplied), every event of the returned sequence is stamped
with the queried user: `ev.user = user_address` for each returned `ev`. -/
theorem unw_eth_events_user_stamped
    (ge : String → Option TopicFilter → Option (List TokenEvent))
    (event_name u : String) (r : List TokenEvent)
    (h : get_unw_eth_events ge event_name (some u) = some r) :
    allStamped r u := by
  intro ev hev
  simp only [get_unw_eth_events] at h
  by_cases ht : (event_name == TransferEvent) = true
  · rw [if_pos ht] at h
    cases hg1 : ge event_name (some TopicFilter.topicFirst) with
    | none =>
      rw [hg1] at h
      cases hg2 : ge event_name (some TopicFilter.topicSecond) with
      | none =>
        rw [hg2] at h
        exact absurd h (by simp)
      | some l2 =>
        rw [hg2] at h
        exact absurd h (by simp)
    | some l1 =>
      rw [hg1] at h
      cases hg2 : ge event_name (some TopicFilter.topicSecond) with
      | none =>
        rw [hg2] at h
        exact absurd h (by simp)
      | some l2 =>
        rw [hg2] at h
        rw [Option.some_inj] at h
        subst h
        exact mem_sorted_stamp hev
  · rw [if_neg ht] at h
    cases hg1 : ge event_name (some TopicFilter.topicFirst) with
    | none =>
      rw [hg1] at h
      exact absurd h (by simp)
    | some l =>
      rw [hg1] at h
      simp only [Option.map_some'] at h
      rw [Option.some_inj] at h
      subst h
      exact mem_sorted_stamp hev

/-- The concrete merged and stamped result of `geBoth` for user `A`. -/
def stampedResult : List TokenEvent :=
  [⟨1, 0, "A", "B", 10, some "A"⟩, ⟨1, 0, "A", "B", 10, some "A"⟩,
   ⟨2, 0, "B", "A", 4, some "A"⟩]

/-- C9 witness: the concrete query returns `stampedResult`, all of whose
events carry `user = A`. -/
theorem unw_eth_events_user_stamped_witness :
    get_unw_eth_events geBoth TransferEvent (some "A") = some stampedResult ∧
    allStamped stampedResult "A" :=
  ⟨by decide,
    unw_eth_events_user_stamped geBoth TransferEvent "A" stampedResult (by decide)⟩

/-- A concrete fan-out where the sender-topic sub-query completes with one
event before the `joinall` deadline but the receiver-topic greenlet does
not (its `.value` is still `None`). -/
def geTimeout : String → Option TopicFilter → Option (List TokenEvent) :=
  fun name topic =>
    if name == TransferEvent && topic == some TopicFilter.topicFirst then
      some [⟨3, 0, "A", "B", 10, none⟩]
    else none

/-- C3 (code evaluated at the failing input): the sender-topic sub-query
completed with one event, the receiver-topic sub-query missed the deadline —
yet `get_unw_eth_events` does not return the completed events; it reads the
unfinished greenlet's `None` value and the
`list(itertools.chain.from_iterable(...))` raises a `TypeError` (modelled as
`none`), and `get_all_unw_eth_events` propagates the same failure. -/
theorem unw_eth_timeout_surfaces_error :
    geTimeout TransferEvent (some TopicFilter.topicFirst) =
      some [⟨3, 0, "A", "B", 10, none⟩] ∧
    geTimeout TransferEvent (some TopicFilter.topicSecond) = none ∧
    get_unw_eth_events geTimeout TransferEvent (some "A") = none ∧
    get_all_unw_eth_events geTimeout (fun _ => true) (some "A") = none := by
  decide

end Relay
